import Mathlib

/-
  Verification of the agentSquad coordination substrate.

  Shallow embedding of the core of the repository:
  - src/message_bus.py      (Message, MessageBus)
  - src/authorities.py      (Authority, ROLE_AUTHORITIES, get_role_authorities,
                             has_authority, requires_authority)
  - src/base_agent.py       (BaseAgent lifecycle and run loop)

  Python dictionaries are embedded as association lists with unique keys
  (insertion order preserved, as in CPython), asyncio queues as Lean lists
  (enqueue appends at the right, dequeue takes the head), and raised
  exceptions as explicit outcome constructors.
-/

set_option autoImplicit false

namespace AgentSquad

/-- Embedding of the Message dataclass of src/message_bus.py.  The opaque
content payload is embedded as a string; metadata as an optional key-value
list; the float timestamp as an optional rational. -/
structure Message where
  sender : String
  recipient : String
  message_type : String
  content : String
  metadata : Option (List (String × String)) := none
  timestamp : Option Rat := none
deriving DecidableEq, Repr

/-- Lookup in an association list, first matching key wins: embedding of a
Python dict read.  Python dicts have unique keys, so first match is the
entry. -/
def qlookup {α : Type} : List (String × α) → String → Option α
  | [], _ => none
  | (k, v) :: rest, r => if k = r then some v else qlookup rest r

/-- Replace the value stored under a key, first matching entry: embedding of
a Python dict write on an existing key. -/
def setVal {α : Type} : List (String × α) → String → α → List (String × α)
  | [], _, _ => []
  | (k, v) :: rest, r, w => if k = r then (k, w) :: rest else (k, v) :: setVal rest r w

/-- Remove the entry stored under a key, first matching entry: embedding of
a Python del on a dict. -/
def removeKey {α : Type} : List (String × α) → String → List (String × α)
  | [], _ => []
  | (k, v) :: rest, r => if k = r then rest else (k, v) :: removeKey rest r

/-- Remove the first occurrence of an element: embedding of Python
list.remove. -/
def removeFirst : List String → String → List String
  | [], _ => []
  | x :: xs, y => if x = y then xs else x :: removeFirst xs y

/-- Embedding of the MessageBus state of src/message_bus.py: the
_agent_queues dict (role to mailbox queue), the _subscriptions dict
(message type to subscriber list) and the bounded _message_history list. -/
structure MessageBus where
  agent_queues : List (String × List Message)
  subscriptions : List (String × List String)
  message_history : List Message
deriving DecidableEq, Repr

/-- MessageBus.__init__: empty registry, empty subscriptions, empty
history. -/
def initialBus : MessageBus :=
  { agent_queues := [], subscriptions := [], message_history := [] }

/-- The _max_history bound of MessageBus. -/
def max_history : Nat := 1000

/-- Whether a role has a registered mailbox: embedding of the Python test
`agent_role in self._agent_queues`. -/
def registered (bus : MessageBus) (role : String) : Bool :=
  (qlookup bus.agent_queues role).isSome

/-- Mailbox contents of a role, none when unregistered. -/
def mailboxOf (bus : MessageBus) (role : String) : Option (List Message) :=
  qlookup bus.agent_queues role

/-- Subscriber list of a message type, empty when the type has no entry:
the iteration `for agent in self._subscriptions[message.message_type]`
guarded by the membership test. -/
def subscribers (bus : MessageBus) (message_type : String) : List String :=
  (qlookup bus.subscriptions message_type).getD []

/-- Keys of the mailbox registry, in insertion order: the iteration
`for agent in self._agent_queues.keys()`. -/
def busKeys (bus : MessageBus) : List String :=
  bus.agent_queues.map Prod.fst

/-- MessageBus.register_agent: idempotent creation of an empty mailbox. -/
def register_agent (bus : MessageBus) (agent_role : String) : MessageBus :=
  if (qlookup bus.agent_queues agent_role).isSome then bus
  else { bus with agent_queues := bus.agent_queues ++ [(agent_role, [])] }

/-- MessageBus.unregister_agent: delete the mailbox when present (silent
otherwise), then purge the role from every subscription list that holds
it (Python list.remove drops the first occurrence). -/
def unregister_agent (bus : MessageBus) (agent_role : String) : MessageBus :=
  { bus with
    agent_queues :=
      if (qlookup bus.agent_queues agent_role).isSome then
        removeKey bus.agent_queues agent_role
      else bus.agent_queues,
    subscriptions :=
      bus.subscriptions.map (fun p =>
        if agent_role ∈ p.2 then (p.1, removeFirst p.2 agent_role) else p) }

/-- MessageBus.subscribe: create the subscription list when absent, then
append the role when not already present. -/
def subscribe (bus : MessageBus) (agent_role : String) (message_type : String) : MessageBus :=
  match qlookup bus.subscriptions message_type with
  | none => { bus with subscriptions := bus.subscriptions ++ [(message_type, [agent_role])] }
  | some l =>
      if agent_role ∈ l then bus
      else { bus with subscriptions := setVal bus.subscriptions message_type (l ++ [agent_role]) }

/-- MessageBus.unsubscribe: remove the role from the subscription list of
the type when both exist; silent otherwise. -/
def unsubscribe (bus : MessageBus) (agent_role : String) (message_type : String) : MessageBus :=
  match qlookup bus.subscriptions message_type with
  | none => bus
  | some l =>
      if agent_role ∈ l then
        { bus with subscriptions := setVal bus.subscriptions message_type (removeFirst l agent_role) }
      else bus

/-- Insert into a Python set embedded as a duplicate-free list:
`recipients.add(x)` keeps the set unchanged when x is already in it. -/
def insertUniq (l : List String) (x : String) : List String :=
  if x ∈ l then l else l ++ [x]

/-- Fold adding every element of a list except the sender into the
recipient set: the two loops of MessageBus.publish that guard each add with
`if agent != message.sender`. -/
def addNonSender (sender : String) (init : List String) (l : List String) : List String :=
  l.foldl (fun acc a => if a = sender then acc else insertUniq acc a) init

/-- The first add of MessageBus.publish: the named recipient joins the
recipient set when it is not the broadcast sentinel and is registered. -/
def namedPart (bus : MessageBus) (m : Message) : List String :=
  if m.recipient ≠ "all" ∧ registered bus m.recipient = true then [m.recipient] else []

/-- The recipient set computed by MessageBus.publish, in the order the code
builds it: (1) the named recipient when it is not "all" and is registered,
(2) every subscriber to the message type other than the sender, (3) on a
broadcast, every registered role other than the sender. -/
def recipientsOf (bus : MessageBus) (m : Message) : List String :=
  if m.recipient = "all" then
    addNonSender m.sender
      (addNonSender m.sender (namedPart bus m) (subscribers bus m.message_type)) (busKeys bus)
  else
    addNonSender m.sender (namedPart bus m) (subscribers bus m.message_type)

/-- Append a message to every queue stored under a key: the put on
`self._agent_queues[recipient]`. -/
def enqueue1 (qs : List (String × List Message)) (r : String) (m : Message) :
    List (String × List Message) :=
  qs.map (fun p => if p.1 = r then (p.1, p.2 ++ [m]) else p)

/-- The delivery loop of MessageBus.publish: for each computed recipient,
enqueue the message when the recipient is (still) registered, skip it
silently otherwise. -/
def deliver (qs : List (String × List Message)) (rs : List String) (m : Message) :
    List (String × List Message) :=
  rs.foldl (fun acc r => if (qlookup acc r).isSome then enqueue1 acc r m else acc) qs

/-- MessageBus.publish: append to history, trim the history to
_max_history by dropping the oldest entry, compute the recipient set and
deliver.  The Python code raises nothing on this path. -/
def publish (bus : MessageBus) (m : Message) : MessageBus :=
  let h := bus.message_history ++ [m]
  { agent_queues := deliver bus.agent_queues (recipientsOf bus m) m,
    subscriptions := bus.subscriptions,
    message_history := if h.length > max_history then h.drop 1 else h }

/-- The set of mailboxes publish actually enqueues into: the computed
recipients that pass the registration check of the delivery loop. -/
def deliveredSet (bus : MessageBus) (m : Message) : List String :=
  (recipientsOf bus m).filter (fun r => registered bus r)

/-- MessageBus.get_message_history: `list(reversed(history[-limit:]))`.
The Python slice [-limit:] is the whole list when limit = 0 (since -0 is 0)
and the last limit entries when limit is positive. -/
def get_message_history (bus : MessageBus) (limit : Nat) : List Message :=
  (if limit = 0 then bus.message_history
   else bus.message_history.drop (bus.message_history.length - limit)).reverse

/-- Python truthiness of the optional float timeout in the test
`if timeout:`: None and 0.0 are falsy, every other number truthy. -/
def pyTruthy : Option Rat → Bool
  | none => false
  | some t => decide (t ≠ 0)

/-- Outcome of MessageBus.receive.  unknownAgent embeds the raised
ValueError; delivered carries the dequeued message and the new bus state;
timedOut embeds returning None after asyncio.TimeoutError; blocks embeds a
call that never returns because `await queue.get()` waits forever. -/
inductive ReceiveOutcome where
  | unknownAgent (role : String)
  | delivered (m : Message) (bus : MessageBus)
  | timedOut
  | blocks
deriving DecidableEq, Repr

/-- MessageBus.receive: raise for an unregistered role; otherwise take the
next queued message.  When the mailbox stays empty for the whole wait
window (the bus state here is the state at the end of that window), a
truthy timeout yields None via asyncio.TimeoutError and a falsy one
(None or 0) leaves the call blocked on `await queue.get()`. -/
def receiveO (bus : MessageBus) (agent_role : String) (timeout : Option Rat) : ReceiveOutcome :=
  match qlookup bus.agent_queues agent_role with
  | none => .unknownAgent agent_role
  | some [] => if pyTruthy timeout then .timedOut else .blocks
  | some (m :: rest) =>
      .delivered m { bus with agent_queues := setVal bus.agent_queues agent_role rest }

/-- Embedding of the Authority enum of src/authorities.py. -/
inductive Authority where
  | READ_SENSOR_DATA
  | READ_INTEL
  | READ_COP
  | READ_PLANS
  | READ_DRONE_STATUS
  | WRITE_PROCESSED_INTEL
  | WRITE_COP
  | WRITE_PLANS
  | WRITE_COLLECTION_TASKS
  | COMMAND_DRONES
  | CREATE_COLLECTION_TASKS
  | MODIFY_PLANS
deriving DecidableEq, Repr

/-- Embedding of the ROLE_AUTHORITIES mapping of src/authorities.py, an
association list in the literal order of the source; the value sets are
embedded as duplicate-free lists. -/
def ROLE_AUTHORITIES : List (String × List Authority) :=
  [("collection_processor",
      [Authority.READ_SENSOR_DATA, Authority.READ_INTEL, Authority.WRITE_PROCESSED_INTEL]),
   ("intelligence_analyst",
      [Authority.READ_COP, Authority.WRITE_COP]),
   ("mission_planner",
      [Authority.READ_COP, Authority.READ_PLANS, Authority.READ_DRONE_STATUS,
       Authority.WRITE_PLANS, Authority.MODIFY_PLANS]),
   ("collection_manager",
      [Authority.READ_COP, Authority.READ_PLANS, Authority.READ_DRONE_STATUS,
       Authority.WRITE_COLLECTION_TASKS, Authority.CREATE_COLLECTION_TASKS,
       Authority.COMMAND_DRONES])]

/-- get_role_authorities of src/authorities.py: the raised ValueError for a
role absent from the map is embedded as the error branch. -/
def get_role_authorities (role : String) : Except String (List Authority) :=
  match qlookup ROLE_AUTHORITIES role with
  | none => .error ("Unknown role: " ++ role)
  | some l => .ok l

/-- has_authority of src/authorities.py: membership test on the role
authorities, with the ValueError of the lookup caught and turned into
false. -/
def has_authority (role : String) (authority : Authority) : Bool :=
  match get_role_authorities role with
  | .ok role_auths => decide (authority ∈ role_auths)
  | .error _ => false

/-- The sync_wrapper produced by the requires_authority decorator of
src/authorities.py, acting on an operation embedded as a state transformer
over an arbitrary observable state.  The wrapper raises
UnauthorizedActionError (embedded as the error value carrying the role and
the required authority, exactly the two fields of the exception) before
touching the operation when the authority check fails, and otherwise
returns the operation result unchanged. -/
def sync_wrapper {σ α : Type} (role : String) (authority : Authority)
    (func : σ → σ × α) (s : σ) : σ × Except (String × Authority) α :=
  if has_authority role authority then
    let r := func s
    (r.1, Except.ok r.2)
  else (s, Except.error (role, authority))

/-- The async_wrapper produced by the requires_authority decorator of
src/authorities.py: the source duplicates the body of the synchronous
wrapper verbatim around an awaited call, so its embedding repeats the same
definition. -/
def async_wrapper {σ α : Type} (role : String) (authority : Authority)
    (func : σ → σ × α) (s : σ) : σ × Except (String × Authority) α :=
  if has_authority role authority then
    let r := func s
    (r.1, Except.ok r.2)
  else (s, Except.error (role, authority))

/-- Lifecycle state of BaseAgent of src/base_agent.py: the _running flag
and the number of live run-loop tasks spawned and not yet terminated. -/
structure AgentRuntime where
  running : Bool
  loops : Nat
deriving DecidableEq, Repr

/-- BaseAgent.__init__ control state: _running = False, no task. -/
def initialRuntime : AgentRuntime :=
  { running := false, loops := 0 }

/-- BaseAgent.start: return at once when already running, otherwise set the
flag and spawn exactly one run-loop task. -/
def startAgent (a : AgentRuntime) : AgentRuntime :=
  if a.running then a
  else { running := true, loops := a.loops + 1 }

/-- BaseAgent.stop: return at once when not running, otherwise clear the
flag, cancel the task and await its exit (the CancelledError is swallowed),
so the spawned loop is gone. -/
def stopAgent (a : AgentRuntime) : AgentRuntime :=
  if a.running then { running := false, loops := a.loops - 1 }
  else a

/-- One iteration stimulus of BaseAgent._run_loop: the receive call timed
out returning None; the receive call itself raised (generic except branch:
logged, sleep, continue); a message was dequeued, together with the
outcome of persisting it to the context manager and of dispatching it to
the handler; or the task was cancelled. -/
inductive LoopEvent where
  | timeout
  | recvError (e : String)
  | msg (m : Message) (persistR : Except String Unit) (dispatchR : Except String Unit)
  | cancelled

/-- Whether a stimulus is the cancellation signal. -/
def LoopEvent.isCancelled : LoopEvent → Bool
  | .cancelled => true
  | _ => false

/-- How the loop exited: the while condition turned false (stop), or
CancelledError broke out of it. -/
inductive ExitKind where
  | stopped
  | cancelled
deriving DecidableEq, Repr

/-- BaseAgent._handle_message: the try block persists the message to the
context manager and then dispatches it; the except block catches every
error from either step and only logs it, so the embedding is total and
returns the logged error, if any.  A dispatch never runs when persistence
already failed. -/
def handle_message (persistR : Except String Unit) (dispatchR : Except String Unit) :
    Option String :=
  match persistR with
  | .error e => some e
  | .ok _ =>
      match dispatchR with
      | .error e => some e
      | .ok _ => none

/-- BaseAgent._run_loop over a finite stimulus trace: one entry per
iteration of the while loop.  The trace ending means _running was observed
false; a cancelled event breaks the loop.  Every other event produces one
iteration outcome (the error logged in that iteration, if any) and the
loop continues. -/
def run_loop_from : List LoopEvent → List (Option String) × ExitKind
  | [] => ([], .stopped)
  | e :: rest =>
      match e with
      | .cancelled => ([], .cancelled)
      | .timeout =>
          let r := run_loop_from rest
          (none :: r.1, r.2)
      | .recvError s =>
          let r := run_loop_from rest
          (some s :: r.1, r.2)
      | .msg _ p d =>
          let r := run_loop_from rest
          (handle_message p d :: r.1, r.2)

/-- Whether an Except value is the error branch: used to state that a
lookup raised. -/
def exceptIsError {ε α : Type} : Except ε α → Bool
  | .error _ => true
  | .ok _ => false

/-! ### The delivery set as the claim words it

The claim states the delivery set as a union whose subscription clause
does not require the subscriber to be registered.  This definition follows
those words, to be compared with deliveredSet, which is computed from the
source. -/

/-- Modelled from the claim wording, not from the source: the union of
(a) the named recipient when not "all" and registered, (b) every
subscriber to the message type other than the sender, with no registration
requirement, and (c) every registered identity other than the sender when
the recipient is "all". -/
def claimedDeliverySet (bus : MessageBus) (m : Message) : List String :=
  (if m.recipient ≠ "all" ∧ registered bus m.recipient = true then [m.recipient] else [])
  ++ (subscribers bus m.message_type).filter (fun a => a ≠ m.sender)
  ++ (if m.recipient = "all" then (busKeys bus).filter (fun a => a ≠ m.sender) else [])

/-! ### Concrete fixtures used by counterexamples and witnesses -/

/-- A bus with the single registered identity "a". -/
def busA : MessageBus := register_agent initialBus "a"

/-- A bus where the unregistered identity "ghost" subscribed to type "t":
subscribe does not require registration. -/
def busGhostSub : MessageBus := subscribe initialBus "ghost" "t"

/-- A message from "a" to the unregistered identity "b" of type "t". -/
def msgAB : Message :=
  { sender := "a", recipient := "b", message_type := "t", content := "c" }

/-- A message from "b" to "a" of type "t". -/
def msgBA : Message :=
  { sender := "b", recipient := "a", message_type := "t", content := "c" }

/-- A message from "a" to itself. -/
def msgAA : Message :=
  { sender := "a", recipient := "a", message_type := "t", content := "c" }

/-- A broadcast from "x". -/
def msgXAll : Message :=
  { sender := "x", recipient := "all", message_type := "update", content := "c" }

/-- A bus with registered identities "x", "y", "z". -/
def busXYZ : MessageBus :=
  register_agent (register_agent (register_agent initialBus "x") "y") "z"

/-- The bus busA after "b" published a message to "a": the mailbox of "a"
holds that message. -/
def busA1 : MessageBus := publish busA msgBA

/-- A bus whose history is exactly full, at 1000 entries. -/
def busFull : MessageBus :=
  { agent_queues := [], subscriptions := [], message_history := List.replicate 1000 msgAB }

/-- A run-loop stimulus trace holding two failing messages (one failing at
persistence, one at dispatch), a timeout and a receive error, and no
cancellation. -/
def evtsW : List LoopEvent :=
  [LoopEvent.msg msgAB (.error "boom") (.ok ()),
   LoopEvent.timeout,
   LoopEvent.msg msgAB (.ok ()) (.error "bad"),
   LoopEvent.recvError "oops"]

/-! ### Set lemmas for the recipient computation -/

theorem mem_insertUniq (l : List String) (x y : String) :
    y ∈ insertUniq l x ↔ y ∈ l ∨ y = x := by
  unfold insertUniq
  by_cases h : x ∈ l
  · simp only [if_pos h]
    constructor
    · exact Or.inl
    · rintro (hy | rfl)
      · exact hy
      · exact h
  · simp only [if_neg h, List.mem_append, List.mem_singleton]

theorem nodup_insertUniq (l : List String) (x : String) (h : l.Nodup) :
    (insertUniq l x).Nodup := by
  unfold insertUniq
  by_cases hx : x ∈ l
  · simpa [hx] using h
  · simp [hx, List.nodup_append, h]

theorem mem_addNonSender (s : String) (l : List String) :
    ∀ (init : List String) (x : String),
      x ∈ addNonSender s init l ↔ x ∈ init ∨ (x ∈ l ∧ x ≠ s) := by
  induction l with
  | nil =>
      intro init x
      simp [addNonSender]
  | cons a as ih =>
      intro init x
      have hstep : addNonSender s init (a :: as)
          = addNonSender s (if a = s then init else insertUniq init a) as := rfl
      rw [hstep, ih]
      by_cases ha : a = s
      · rw [if_pos ha]
        subst ha
        constructor
        · rintro (hi | ⟨h1, h2⟩)
          · exact Or.inl hi
          · exact Or.inr ⟨List.mem_cons_of_mem _ h1, h2⟩
        · rintro (hi | ⟨h1, h2⟩)
          · exact Or.inl hi
          · rcases List.mem_cons.mp h1 with rfl | h1
            · exact absurd rfl h2
            · exact Or.inr ⟨h1, h2⟩
      · rw [if_neg ha]
        constructor
        · rintro (hi | ⟨h1, h2⟩)
          · rcases (mem_insertUniq init a x).mp hi with h3 | rfl
            · exact Or.inl h3
            · exact Or.inr ⟨List.mem_cons_self _ _, ha⟩
          · exact Or.inr ⟨List.mem_cons_of_mem _ h1, h2⟩
        · rintro (hi | ⟨h1, h2⟩)
          · exact Or.inl ((mem_insertUniq init a x).mpr (Or.inl hi))
          · rcases List.mem_cons.mp h1 with heq | h1
            · exact Or.inl ((mem_insertUniq init a x).mpr (Or.inr heq))
            · exact Or.inr ⟨h1, h2⟩

theorem nodup_addNonSender (s : String) (l : List String) :
    ∀ init : List String, init.Nodup → (addNonSender s init l).Nodup := by
  induction l with
  | nil =>
      intro init h
      simpa [addNonSender] using h
  | cons a as ih =>
      intro init h
      have hstep : addNonSender s init (a :: as)
          = addNonSender s (if a = s then init else insertUniq init a) as := rfl
      rw [hstep]
      apply ih
      by_cases ha : a = s
      · rw [if_pos ha]; exact h
      · rw [if_neg ha]; exact nodup_insertUniq init a h

theorem qlookup_isSome_iff_mem_keys {α : Type} (qs : List (String × α)) (x : String) :
    (qlookup qs x).isSome = true ↔ x ∈ qs.map Prod.fst := by
  induction qs with
  | nil => simp [qlookup]
  | cons p ps ih =>
      obtain ⟨k, v⟩ := p
      by_cases hk : k = x
      · subst hk
        simp [qlookup]
      · simp [qlookup, hk, ih, Ne.symm hk]

theorem mem_busKeys (bus : MessageBus) (x : String) :
    x ∈ busKeys bus ↔ registered bus x = true := by
  unfold busKeys registered
  exact (qlookup_isSome_iff_mem_keys bus.agent_queues x).symm

theorem mem_namedPart (bus : MessageBus) (m : Message) (r : String) :
    r ∈ namedPart bus m ↔
      m.recipient ≠ "all" ∧ registered bus m.recipient = true ∧ r = m.recipient := by
  unfold namedPart
  by_cases h : m.recipient ≠ "all" ∧ registered bus m.recipient = true
  · simp [if_pos h, h.1, h.2]
  · rw [if_neg h]
    simp only [List.not_mem_nil, false_iff]
    rintro ⟨h1, h2, _⟩
    exact h ⟨h1, h2⟩

theorem nodup_namedPart (bus : MessageBus) (m : Message) : (namedPart bus m).Nodup := by
  unfold namedPart
  by_cases h : m.recipient ≠ "all" ∧ registered bus m.recipient = true
  · simp [if_pos h]
  · simp [if_neg h]

theorem nodup_recipientsOf (bus : MessageBus) (m : Message) :
    (recipientsOf bus m).Nodup := by
  unfold recipientsOf
  by_cases hb : m.recipient = "all"
  · rw [if_pos hb]
    exact nodup_addNonSender _ _ _
      (nodup_addNonSender _ _ _ (nodup_namedPart bus m))
  · rw [if_neg hb]
    exact nodup_addNonSender _ _ _ (nodup_namedPart bus m)

theorem mem_recipientsOf (bus : MessageBus) (m : Message) (r : String) :
    r ∈ recipientsOf bus m ↔
      (m.recipient ≠ "all" ∧ registered bus m.recipient = true ∧ r = m.recipient)
      ∨ (r ∈ subscribers bus m.message_type ∧ r ≠ m.sender)
      ∨ (m.recipient = "all" ∧ registered bus r = true ∧ r ≠ m.sender) := by
  unfold recipientsOf
  by_cases hb : m.recipient = "all"
  · rw [if_pos hb, mem_addNonSender, mem_addNonSender, mem_namedPart, mem_busKeys]
    constructor
    · rintro ((⟨h1, _, _⟩ | h2) | h3)
      · exact absurd hb h1
      · exact Or.inr (Or.inl h2)
      · exact Or.inr (Or.inr ⟨hb, h3.1, h3.2⟩)
    · rintro (⟨h1, _, _⟩ | h2 | h3)
      · exact absurd hb h1
      · exact Or.inl (Or.inr h2)
      · exact Or.inr ⟨h3.2.1, h3.2.2⟩
  · rw [if_neg hb, mem_addNonSender, mem_namedPart]
    constructor
    · rintro (h1 | h2)
      · exact Or.inl h1
      · exact Or.inr (Or.inl h2)
    · rintro (h1 | h2 | ⟨h3, _, _⟩)
      · exact Or.inl h1
      · exact Or.inr h2
      · exact absurd h3 hb

/-! ### Mailbox update lemmas for the delivery loop -/

theorem qlookup_enqueue1 (qs : List (String × List Message)) (r x : String) (m : Message) :
    qlookup (enqueue1 qs r m) x
      = if x = r then (qlookup qs x).map (fun q => q ++ [m]) else qlookup qs x := by
  induction qs with
  | nil =>
      simp [enqueue1, qlookup]
  | cons p ps ih =>
      obtain ⟨k, v⟩ := p
      have hhead : enqueue1 ((k, v) :: ps) r m
          = (if k = r then (k, v ++ [m]) else (k, v)) :: enqueue1 ps r m := by
        by_cases hk : k = r
        · simp [enqueue1, hk]
        · simp [enqueue1, hk]
      rw [hhead]
      by_cases hk : k = r
      · rw [if_pos hk]
        by_cases hx : k = x
        · have hxr : x = r := by rw [← hx, hk]
          simp [qlookup, hx, hxr]
        · simp [qlookup, hx, ih]
      · rw [if_neg hk]
        by_cases hx : k = x
        · have hxr : ¬(x = r) := by
            intro h
            exact hk (by rw [hx, h])
          simp [qlookup, hx, hxr]
        · simp [qlookup, hx, ih]

theorem qlookup_deliver (m : Message) :
    ∀ (rs : List String), rs.Nodup → ∀ (qs : List (String × List Message)) (x : String),
      qlookup (deliver qs rs m) x
        = if x ∈ rs ∧ (qlookup qs x).isSome = true then
            (qlookup qs x).map (fun q => q ++ [m])
          else qlookup qs x := by
  intro rs
  induction rs with
  | nil =>
      intro _ qs x
      simp [deliver]
  | cons r rest ih =>
      intro hnd qs x
      have hr : r ∉ rest := (List.nodup_cons.mp hnd).1
      have hrest : rest.Nodup := (List.nodup_cons.mp hnd).2
      have hstep : deliver qs (r :: rest) m
          = deliver (if (qlookup qs r).isSome then enqueue1 qs r m else qs) rest m := rfl
      rw [hstep]
      by_cases hreg : (qlookup qs r).isSome = true
      · rw [if_pos hreg, ih hrest]
        by_cases hx : x = r
        · subst hx
          rw [qlookup_enqueue1]
          simp [hr, hreg]
        · rw [qlookup_enqueue1]
          simp only [if_neg hx]
          by_cases hmem : x ∈ rest
          · simp [hmem, hx, List.mem_cons]
          · simp [hmem, hx, List.mem_cons]
      · rw [if_neg hreg, ih hrest]
        by_cases hx : x = r
        · subst hx
          simp [hr, hreg]
        · simp [hx, List.mem_cons]

theorem mem_deliveredSet (bus : MessageBus) (m : Message) (r : String) :
    r ∈ deliveredSet bus m ↔ r ∈ recipientsOf bus m ∧ registered bus r = true := by
  simp [deliveredSet, List.mem_filter]

theorem mailboxOf_publish (bus : MessageBus) (m : Message) (r : String) :
    mailboxOf (publish bus m) r
      = if r ∈ deliveredSet bus m then (mailboxOf bus r).map (fun q => q ++ [m])
        else mailboxOf bus r := by
  show qlookup (deliver bus.agent_queues (recipientsOf bus m) m) r = _
  rw [qlookup_deliver m (recipientsOf bus m) (nodup_recipientsOf bus m) bus.agent_queues r]
  by_cases h1 : r ∈ recipientsOf bus m
  · by_cases h2 : registered bus r = true
    · have hm : r ∈ deliveredSet bus m := (mem_deliveredSet bus m r).mpr ⟨h1, h2⟩
      have h2s : (qlookup bus.agent_queues r).isSome = true := h2
      rw [if_pos ⟨h1, h2s⟩, if_pos hm]
      rfl
    · have hm : r ∉ deliveredSet bus m := fun h => h2 ((mem_deliveredSet bus m r).mp h).2
      have h2s : ¬((qlookup bus.agent_queues r).isSome = true) := h2
      rw [if_neg (fun h => h2s h.2), if_neg hm]
      rfl
  · have hm : r ∉ deliveredSet bus m := fun h => h1 ((mem_deliveredSet bus m r).mp h).1
    rw [if_neg (fun h => h1 h.1), if_neg hm]
    rfl

/-! ### History lemmas -/

theorem publish_history_getLast (bus : MessageBus) (m : Message) :
    (publish bus m).message_history.getLast? = some m := by
  show (if (bus.message_history ++ [m]).length > max_history
        then (bus.message_history ++ [m]).drop 1
        else bus.message_history ++ [m]).getLast? = some m
  by_cases h : (bus.message_history ++ [m]).length > max_history
  · rw [if_pos h]
    have hlen : 1 ≤ bus.message_history.length := by
      simp only [List.length_append, List.length_singleton, max_history] at h
      omega
    rw [List.drop_append_of_le_length hlen]
    exact List.getLast?_concat _
  · rw [if_neg h]
    exact List.getLast?_concat _

theorem publish_history_bounded (bus : MessageBus) (m : Message)
    (h : bus.message_history.length ≤ max_history) :
    (publish bus m).message_history.length ≤ max_history := by
  show (if (bus.message_history ++ [m]).length > max_history
        then (bus.message_history ++ [m]).drop 1
        else bus.message_history ++ [m]).length ≤ max_history
  by_cases hc : (bus.message_history ++ [m]).length > max_history
  · rw [if_pos hc]
    simp only [List.length_drop, List.length_append, List.length_singleton]
    omega
  · rw [if_neg hc]
    omega

theorem publish_history_evicts (bus : MessageBus) (m : Message)
    (h : bus.message_history.length = max_history) :
    (publish bus m).message_history = bus.message_history.drop 1 ++ [m] := by
  show (if (bus.message_history ++ [m]).length > max_history
        then (bus.message_history ++ [m]).drop 1
        else bus.message_history ++ [m]) = bus.message_history.drop 1 ++ [m]
  have hc : (bus.message_history ++ [m]).length > max_history := by
    simp only [List.length_append, List.length_singleton]
    omega
  rw [if_pos hc]
  have h1 : 1 ≤ bus.message_history.length := by
    rw [h]; simp [max_history]
  exact List.drop_append_of_le_length h1

theorem get_message_history_pos (bus : MessageBus) (limit : Nat) (h : 0 < limit) :
    get_message_history bus limit = bus.message_history.reverse.take limit := by
  unfold get_message_history
  rw [if_neg (Nat.pos_iff_ne_zero.mp h)]
  rw [List.reverse_drop]
  rcases Nat.le_total limit bus.message_history.length with hle | hge
  · congr 1
    omega
  · rw [Nat.sub_eq_zero_of_le hge, Nat.sub_zero]
    rw [List.take_of_length_le (by simp),
        List.take_of_length_le (by simpa using hge)]

/-- Map with a function that fixes every element of the list is the
identity. -/
theorem map_id_of_fix {α : Type} (l : List α) (f : α → α) (h : ∀ x ∈ l, f x = x) :
    l.map f = l := by
  induction l with
  | nil => rfl
  | cons a as ih =>
      rw [List.map_cons, h a (List.mem_cons_self a as),
          ih (fun x hx => h x (List.mem_cons_of_mem a hx))]

/-! ### Claim theorems -/

/-- Claim C1, amended: the set of mailboxes publish enqueues a message
into is exactly the union of (a) the named recipient when it is not the
broadcast sentinel "all" and is registered, (b) every REGISTERED identity
subscribed to the message type other than the sender, and (c) every
registered identity other than the sender when the recipient is "all";
each delivered mailbox receives the message appended exactly once, and a
broadcast is never enqueued into the mailbox of the sender.  (The claim as
frozen omits the registration requirement in clause (b); see the
counterexample theorem.) -/
theorem publish_delivery_characterization (bus : MessageBus) (m : Message) (r : String) :
    (r ∈ deliveredSet bus m ↔
      (m.recipient ≠ "all" ∧ r = m.recipient ∧ registered bus r = true)
      ∨ (r ∈ subscribers bus m.message_type ∧ r ≠ m.sender ∧ registered bus r = true)
      ∨ (m.recipient = "all" ∧ registered bus r = true ∧ r ≠ m.sender))
    ∧ (mailboxOf (publish bus m) r
        = if r ∈ deliveredSet bus m then (mailboxOf bus r).map (fun q => q ++ [m])
          else mailboxOf bus r)
    ∧ (m.recipient = "all" → m.sender ∉ deliveredSet bus m) := by
  refine ⟨?_, mailboxOf_publish bus m r, ?_⟩
  · rw [mem_deliveredSet, mem_recipientsOf]
    constructor
    · rintro ⟨(⟨h1, _, h3⟩ | ⟨h1, h2⟩ | ⟨h1, h2, h3⟩), hreg⟩
      · exact Or.inl ⟨h1, h3, hreg⟩
      · exact Or.inr (Or.inl ⟨h1, h2, hreg⟩)
      · exact Or.inr (Or.inr ⟨h1, hreg, h3⟩)
    · rintro (⟨h1, h2, h3⟩ | ⟨h1, h2, h3⟩ | ⟨h1, h2, h3⟩)
      · exact ⟨Or.inl ⟨h1, h2 ▸ h3, h2⟩, h3⟩
      · exact ⟨Or.inr (Or.inl ⟨h1, h2⟩), h3⟩
      · exact ⟨Or.inr (Or.inr ⟨h1, h2, h3⟩), h2⟩
  · intro hall hmem
    rw [mem_deliveredSet, mem_recipientsOf] at hmem
    rcases hmem with ⟨(⟨h1, _, _⟩ | ⟨_, h2⟩ | ⟨_, _, h3⟩), _⟩
    · exact h1 hall
    · exact h2 rfl
    · exact h3 rfl

/-- Claim C1, counterexample to the frozen wording: on a bus where the
unregistered identity "ghost" subscribed to type "t", the claimed union
contains "ghost" for a message of type "t" from "a" to "b", but publish
enqueues into no mailbox of "ghost" (none exists). -/
theorem publish_delivery_spec_gap :
    "ghost" ∈ claimedDeliverySet busGhostSub msgAB
    ∧ "ghost" ∉ deliveredSet busGhostSub msgAB
    ∧ mailboxOf (publish busGhostSub msgAB) "ghost" = none := by decide

/-- Witness for the amended claim C1 at the broadcast scenario of the
spec: from the bus with "x", "y", "z" registered, a broadcast from "x" is
never delivered to "x", and the mailbox equation holds at "y". -/
theorem publish_delivery_characterization_witness :
    ("x" ∉ deliveredSet busXYZ msgXAll)
    ∧ (mailboxOf (publish busXYZ msgXAll) "y"
        = if "y" ∈ deliveredSet busXYZ msgXAll
          then (mailboxOf busXYZ "y").map (fun q => q ++ [msgXAll])
          else mailboxOf busXYZ "y") :=
  ⟨(publish_delivery_characterization busXYZ msgXAll "x").2.2 rfl,
   (publish_delivery_characterization busXYZ msgXAll "y").2.1⟩

/-- Claim C2, amended: every publish appends the message to the history,
also when the delivery set is empty; the history never exceeds 1000
entries and a publish at the 1000-entry bound evicts the oldest entry; and
for every POSITIVE limit, get_message_history returns the most recent
limit entries, newest first.  (At limit = 0 the code returns the whole
history, newest first, not 0 entries; see the counterexample theorem.) -/
theorem history_contract (bus : MessageBus) (m : Message) (limit : Nat) :
    ((publish bus m).message_history.getLast? = some m)
    ∧ (bus.message_history.length ≤ 1000 → (publish bus m).message_history.length ≤ 1000)
    ∧ (bus.message_history.length = 1000 →
        (publish bus m).message_history = bus.message_history.drop 1 ++ [m])
    ∧ (0 < limit → get_message_history bus limit = bus.message_history.reverse.take limit) :=
  ⟨publish_history_getLast bus m, publish_history_bounded bus m,
   publish_history_evicts bus m, get_message_history_pos bus limit⟩

/-- Claim C2, counterexample to the frozen wording at limit = 0: on a bus
whose history holds one message, get_message_history 0 returns that
message (the Python slice [-0:] is the whole list), not the most recent 0
entries. -/
theorem get_history_zero_returns_all :
    get_message_history busA1 0 ≠ busA1.message_history.reverse.take 0 := by decide

/-- The fixture busFull indeed holds exactly 1000 history entries. -/
theorem busFull_history_length : busFull.message_history.length = 1000 := by
  show (List.replicate 1000 msgAB).length = 1000
  rw [List.length_replicate]

/-- Witness for the amended claim C2 at a bus whose history is exactly
full: the published message is appended, the bound is kept, the oldest
entry is evicted, and get_message_history 3 is the most recent 3 entries
newest first. -/
theorem history_contract_witness :
    ((publish busFull msgBA).message_history.getLast? = some msgBA)
    ∧ ((publish busFull msgBA).message_history.length ≤ 1000)
    ∧ ((publish busFull msgBA).message_history
        = busFull.message_history.drop 1 ++ [msgBA])
    ∧ (get_message_history busFull 3 = busFull.message_history.reverse.take 3) :=
  ⟨(history_contract busFull msgBA 3).1,
   (history_contract busFull msgBA 3).2.1 (Nat.le_of_eq busFull_history_length),
   (history_contract busFull msgBA 3).2.2.1 busFull_history_length,
   (history_contract busFull msgBA 3).2.2.2 (by decide)⟩

/-- Claim C3: for an actor with a bound role, a wrapped operation whose
required authority the role lacks never executes (the state is returned
unchanged) and the guard raises UnauthorizedAction carrying that role and
authority; when the role has the authority the operation runs and its
result is returned unchanged; and the synchronous and asynchronous
wrappers agree on every input. -/
theorem guard_wrapper_contract (σ α : Type) (role : String) (authority : Authority)
    (func : σ → σ × α) (s : σ) :
    (has_authority role authority = false →
      sync_wrapper role authority func s = (s, Except.error (role, authority))
      ∧ async_wrapper role authority func s = (s, Except.error (role, authority)))
    ∧ (has_authority role authority = true →
      sync_wrapper role authority func s = ((func s).1, Except.ok (func s).2)
      ∧ async_wrapper role authority func s = ((func s).1, Except.ok (func s).2))
    ∧ sync_wrapper role authority func s = async_wrapper role authority func s := by
  unfold sync_wrapper async_wrapper
  cases hh : has_authority role authority with
  | false => simp [hh]
  | true => simp [hh]

/-- Witness for claim C3: role collection_processor lacks COMMAND_DRONES,
so both wrappers leave the state 5 unchanged and raise; role
collection_manager has it, so both wrappers run the operation. -/
theorem guard_wrapper_contract_witness :
    (sync_wrapper "collection_processor" Authority.COMMAND_DRONES
        (fun n : Nat => (n + 1, n)) 5
      = (5, Except.error ("collection_processor", Authority.COMMAND_DRONES))
     ∧ async_wrapper "collection_processor" Authority.COMMAND_DRONES
        (fun n : Nat => (n + 1, n)) 5
      = (5, Except.error ("collection_processor", Authority.COMMAND_DRONES)))
    ∧ (sync_wrapper "collection_manager" Authority.COMMAND_DRONES
        (fun n : Nat => (n + 1, n)) 5 = (6, Except.ok 5)
     ∧ async_wrapper "collection_manager" Authority.COMMAND_DRONES
        (fun n : Nat => (n + 1, n)) 5 = (6, Except.ok 5)) :=
  ⟨(guard_wrapper_contract Nat Nat "collection_processor" Authority.COMMAND_DRONES
      (fun n => (n + 1, n)) 5).1 (by decide),
   (guard_wrapper_contract Nat Nat "collection_manager" Authority.COMMAND_DRONES
      (fun n => (n + 1, n)) 5).2.1 (by decide)⟩

/-- Claim C4: has_authority is true exactly for the pairs listed in the
fixed four-role map, is false (without raising: it is a total boolean
function, also at the undefined role "ghost") everywhere else, and
get_role_authorities raises exactly for a role absent from the map. -/
theorem has_authority_characterization (role : String) (a : Authority) :
    (has_authority role a = true ↔
      ((role = "collection_processor" ∧
          (a = Authority.READ_SENSOR_DATA ∨ a = Authority.READ_INTEL
            ∨ a = Authority.WRITE_PROCESSED_INTEL))
        ∨ (role = "intelligence_analyst" ∧
            (a = Authority.READ_COP ∨ a = Authority.WRITE_COP))
        ∨ (role = "mission_planner" ∧
            (a = Authority.READ_COP ∨ a = Authority.READ_PLANS
              ∨ a = Authority.READ_DRONE_STATUS ∨ a = Authority.WRITE_PLANS
              ∨ a = Authority.MODIFY_PLANS))
        ∨ (role = "collection_manager" ∧
            (a = Authority.READ_COP ∨ a = Authority.READ_PLANS
              ∨ a = Authority.READ_DRONE_STATUS ∨ a = Authority.WRITE_COLLECTION_TASKS
              ∨ a = Authority.CREATE_COLLECTION_TASKS ∨ a = Authority.COMMAND_DRONES))))
    ∧ (exceptIsError (get_role_authorities role) = true ↔
        ¬(role = "collection_processor" ∨ role = "intelligence_analyst"
          ∨ role = "mission_planner" ∨ role = "collection_manager"))
    ∧ has_authority "ghost" a = false := by
  by_cases h1 : role = "collection_processor"
  · subst h1; cases a <;> decide
  · by_cases h2 : role = "intelligence_analyst"
    · subst h2; cases a <;> decide
    · by_cases h3 : role = "mission_planner"
      · subst h3; cases a <;> decide
      · by_cases h4 : role = "collection_manager"
        · subst h4; cases a <;> decide
        · have hq : qlookup ROLE_AUTHORITIES role = none := by
            simp [ROLE_AUTHORITIES, qlookup, Ne.symm h1, Ne.symm h2, Ne.symm h3, Ne.symm h4]
          refine ⟨?_, ?_, ?_⟩
          · simp [has_authority, get_role_authorities, hq, h1, h2, h3, h4]
          · simp [exceptIsError, get_role_authorities, hq, h1, h2, h3, h4]
          · cases a <;> decide

/-- Claim C5, amended: publish with an unregistered named recipient and
unregister on an unregistered identity both proceed silently instead of
failing fast: publish still records the message in history and simply
omits the unregistered recipient from delivery; unregister leaves the
mailbox registry unchanged, and is a complete no-op when the identity is
in no subscription list.  (Only receive raises UnknownAgent; see the
counterexample theorem and the receive contract.) -/
theorem unknown_recipient_silent (bus : MessageBus) (m : Message) (role : String) :
    ((publish bus m).message_history.getLast? = some m)
    ∧ (m.recipient ≠ "all" → registered bus m.recipient = false →
        m.recipient ∉ deliveredSet bus m ∧ mailboxOf (publish bus m) m.recipient = none)
    ∧ (registered bus role = false →
        (unregister_agent bus role).agent_queues = bus.agent_queues)
    ∧ (registered bus role = false → (∀ p ∈ bus.subscriptions, role ∉ p.2) →
        unregister_agent bus role = bus) := by
  refine ⟨publish_history_getLast bus m, ?_, ?_, ?_⟩
  · intro _ hreg
    have hmail : mailboxOf bus m.recipient = none := by
      unfold registered at hreg
      unfold mailboxOf
      exact Option.not_isSome_iff_eq_none.mp (by simp [hreg])
    have hmem : m.recipient ∉ deliveredSet bus m := by
      intro hmem
      have hcontra := ((mem_deliveredSet bus m m.recipient).mp hmem).2
      rw [hreg] at hcontra
      exact Bool.false_ne_true hcontra
    refine ⟨hmem, ?_⟩
    rw [mailboxOf_publish, if_neg hmem, hmail]
  · intro hreg
    have hns : ¬((qlookup bus.agent_queues role).isSome = true) := by
      unfold registered at hreg
      simp [hreg]
    show (if (qlookup bus.agent_queues role).isSome then removeKey bus.agent_queues role
          else bus.agent_queues) = bus.agent_queues
    rw [if_neg hns]
  · intro hreg hsubs
    have hns : ¬((qlookup bus.agent_queues role).isSome = true) := by
      unfold registered at hreg
      simp [hreg]
    have hA : (if (qlookup bus.agent_queues role).isSome then
                removeKey bus.agent_queues role
              else bus.agent_queues) = bus.agent_queues := by
      rw [if_neg hns]
    have hB : bus.subscriptions.map
        (fun p => if role ∈ p.2 then (p.1, removeFirst p.2 role) else p)
        = bus.subscriptions := by
      apply map_id_of_fix
      intro p hp
      rw [if_neg (hsubs p hp)]
    unfold unregister_agent
    rw [hA, hB]

/-- Claim C5, counterexample to the frozen wording: on a bus with only "a"
registered, publishing to the unregistered recipient "b" completes
normally (history records the message, no mailbox changes), and
unregistering the unknown identity "ghost" is a silent no-op; neither
call fails with UnknownAgent, because the source raises on neither path. -/
theorem unknown_targets_proceed_silently :
    (publish busA msgAB).message_history = [msgAB]
    ∧ (publish busA msgAB).agent_queues = busA.agent_queues
    ∧ unregister_agent busA "ghost" = busA := by decide

/-- Witness for the amended claim C5: publishing to the unregistered "b"
keeps "b" out of the delivery set and leaves it without a mailbox, and
unregistering "ghost" changes nothing. -/
theorem unknown_recipient_silent_witness :
    ((publish busA msgAB).message_history.getLast? = some msgAB)
    ∧ ("b" ∉ deliveredSet busA msgAB ∧ mailboxOf (publish busA msgAB) "b" = none)
    ∧ ((unregister_agent busA "ghost").agent_queues = busA.agent_queues)
    ∧ (unregister_agent busA "ghost" = busA) :=
  ⟨(unknown_recipient_silent busA msgAB "ghost").1,
   (unknown_recipient_silent busA msgAB "ghost").2.1 (by decide) (by decide),
   (unknown_recipient_silent busA msgAB "ghost").2.2.1 (by decide),
   (unknown_recipient_silent busA msgAB "ghost").2.2.2 (by decide) (by decide)⟩

/-- Claim C6: receive on a registered identity returns the next queued
message when one is available by the end of the wait window, returns None
(not an error) when the mailbox stays empty and a (nonzero) timeout was
given, and raises UnknownAgent for an identity that was never registered,
for every timeout. -/
theorem receive_contract (bus : MessageBus) (role : String) (t : Rat) (m : Message)
    (rest : List Message) :
    (qlookup bus.agent_queues role = some (m :: rest) →
        receiveO bus role (some t)
          = ReceiveOutcome.delivered m
              { bus with agent_queues := setVal bus.agent_queues role rest })
    ∧ (qlookup bus.agent_queues role = some [] → t ≠ 0 →
        receiveO bus role (some t) = ReceiveOutcome.timedOut)
    ∧ (registered bus role = false →
        ∀ t2 : Option Rat, receiveO bus role t2 = ReceiveOutcome.unknownAgent role) := by
  refine ⟨?_, ?_, ?_⟩
  · intro hq
    unfold receiveO
    rw [hq]
  · intro hq ht
    unfold receiveO
    rw [hq]
    simp [pyTruthy, ht]
  · intro hreg t2
    have hq : qlookup bus.agent_queues role = none := by
      unfold registered at hreg
      exact Option.not_isSome_iff_eq_none.mp (by simp [hreg])
    unfold receiveO
    rw [hq]

/-- Witness for claim C6: on busA1 the mailbox of "a" holds one message
and receive returns it; on busA the mailbox of "a" is empty and receive
with timeout 1 returns None; receive for "ghost" raises. -/
theorem receive_contract_witness :
    (receiveO busA1 "a" (some 1)
      = ReceiveOutcome.delivered msgBA
          { busA1 with agent_queues := setVal busA1.agent_queues "a" [] })
    ∧ (receiveO busA "a" (some 1) = ReceiveOutcome.timedOut)
    ∧ (receiveO busA "ghost" (some 1) = ReceiveOutcome.unknownAgent "ghost") :=
  ⟨(receive_contract busA1 "a" 1 msgBA []).1 (by decide),
   (receive_contract busA "a" 1 msgBA []).2.1 (by decide) (by decide),
   (receive_contract busA "ghost" 1 msgBA []).2.2 (by decide) (some 1)⟩

/-- Claim C7: the lifecycle transitions are idempotent: start is a no-op
while running and stop a no-op while stopped, so start after start equals
start and stop after stop equals stop on every runtime state, and starting
the fresh runtime (twice) leaves exactly one running loop. -/
theorem lifecycle_idempotent :
    (∀ a : AgentRuntime, startAgent (startAgent a) = startAgent a)
    ∧ (∀ a : AgentRuntime, stopAgent (stopAgent a) = stopAgent a)
    ∧ (startAgent initialRuntime).loops = 1
    ∧ (startAgent (startAgent initialRuntime)).loops = 1
    ∧ (startAgent initialRuntime).running = true
    ∧ stopAgent initialRuntime = initialRuntime := by
  refine ⟨?_, ?_, rfl, rfl, rfl, rfl⟩
  · intro a
    by_cases h : a.running
    · have h1 : startAgent a = a := by
        unfold startAgent
        rw [if_pos h]
      rw [h1]
      exact h1
    · have h1 : startAgent a = { running := true, loops := a.loops + 1 } := by
        unfold startAgent
        rw [if_neg h]
      rw [h1]
      rfl
  · intro a
    by_cases h : a.running
    · have h1 : stopAgent a = { running := false, loops := a.loops - 1 } := by
        unfold stopAgent
        rw [if_pos h]
      rw [h1]
      rfl
    · have h1 : stopAgent a = a := by
        unfold stopAgent
        rw [if_neg h]
      rw [h1, h1]

/-- Claim C8: over any run-loop stimulus trace without a cancellation, the
loop performs one iteration per stimulus and exits by the while condition:
no error raised while persisting or handling a dequeued message escapes or
shortens the loop; and prepending a message whose persistence or dispatch
fails leaves the processing of the remaining trace unchanged. -/
theorem run_loop_error_isolation (evts : List LoopEvent) :
    (evts.all (fun e => !e.isCancelled) = true →
      (run_loop_from evts).1.length = evts.length
      ∧ (run_loop_from evts).2 = ExitKind.stopped)
    ∧ (∀ (m : Message) (p d : Except String Unit) (rest : List LoopEvent),
        run_loop_from (LoopEvent.msg m p d :: rest)
          = (handle_message p d :: (run_loop_from rest).1, (run_loop_from rest).2)) := by
  constructor
  · induction evts with
    | nil =>
        intro _
        exact ⟨rfl, rfl⟩
    | cons e rest ih =>
        intro h
        rw [List.all_cons, Bool.and_eq_true] at h
        obtain ⟨he, hrest⟩ := h
        have ihr := ih hrest
        cases e with
        | timeout => simp [run_loop_from, ihr.1, ihr.2]
        | recvError s => simp [run_loop_from, ihr.1, ihr.2]
        | msg m p d => simp [run_loop_from, ihr.1, ihr.2]
        | cancelled => simp [LoopEvent.isCancelled] at he
  · intro m p d rest
    rfl

/-- Witness for claim C8: a four-stimulus trace holding a message failing
at persistence and a message failing at dispatch is processed to the end,
four iterations, normal exit. -/
theorem run_loop_error_isolation_witness :
    (run_loop_from evtsW).1.length = 4 ∧ (run_loop_from evtsW).2 = ExitKind.stopped :=
  (run_loop_error_isolation evtsW).1 (by decide)

/-- Claim C9: a zero timeout is Python-falsy, so receive with timeout 0
behaves exactly like receive with no timeout: on an empty registered
mailbox it blocks rather than returning None immediately. -/
theorem receive_zero_timeout_blocks (bus : MessageBus) (role : String) :
    (receiveO bus role (some 0) = receiveO bus role none)
    ∧ (qlookup bus.agent_queues role = some [] →
        receiveO bus role (some 0) = ReceiveOutcome.blocks
        ∧ receiveO bus role (some 0) ≠ ReceiveOutcome.timedOut) := by
  constructor
  · unfold receiveO
    cases hq : qlookup bus.agent_queues role with
    | none => rfl
    | some q =>
        cases q with
        | nil => rfl
        | cons m rest => rfl
  · intro hq
    unfold receiveO
    rw [hq]
    constructor
    · rfl
    · intro hcontra
      simp at hcontra
      exact absurd hcontra (by decide)

/-- Witness for claim C9: on busA the mailbox of "a" is empty; receive
with timeout 0 equals receive with no timeout and blocks. -/
theorem receive_zero_timeout_blocks_witness :
    (receiveO busA "a" (some 0) = receiveO busA "a" none)
    ∧ (receiveO busA "a" (some 0) = ReceiveOutcome.blocks) :=
  ⟨(receive_zero_timeout_blocks busA "a").1,
   ((receive_zero_timeout_blocks busA "a").2 (by decide)).1⟩

/-- Claim C10: a message whose named recipient equals its sender (and is
not "all") is enqueued into the mailbox of the sender itself: the sender
exclusion applies only to the subscription and broadcast paths. -/
theorem publish_self_named_delivery (bus : MessageBus) (m : Message)
    (h1 : m.recipient = m.sender) (h2 : m.recipient ≠ "all")
    (h3 : registered bus m.sender = true) :
    m.sender ∈ deliveredSet bus m
    ∧ mailboxOf (publish bus m) m.sender
        = (mailboxOf bus m.sender).map (fun q => q ++ [m]) := by
  have hmem : m.sender ∈ deliveredSet bus m := by
    rw [mem_deliveredSet, mem_recipientsOf]
    refine ⟨Or.inl ⟨h2, ?_, h1.symm⟩, h3⟩
    rw [h1]
    exact h3
  refine ⟨hmem, ?_⟩
  rw [mailboxOf_publish, if_pos hmem]

/-- Witness for claim C10: with "a" registered, the message from "a" to
"a" lands in the mailbox of "a". -/
theorem publish_self_named_delivery_witness :
    "a" ∈ deliveredSet busA msgAA
    ∧ mailboxOf (publish busA msgAA) "a"
        = (mailboxOf busA "a").map (fun q => q ++ [msgAA]) :=
  publish_self_named_delivery busA msgAA rfl (by decide) (by decide)

end AgentSquad
